import Mathlib

/-!
Verification development for the resurgo/prologo function-detection engine.

The Go sources are shallowly embedded here:
* `detector.go` — `DetectPrologues` (AMD64 prologue linear scan);
* the `resurgo` package — `DetectCallSites`, `DetectFunctions`,
  `detectCallSitesAMD64`, `extractTargetAMD64`, `detectCallSitesARM64`,
  `extractTargetARM64`, and the fusion of prologue and edge records.

Machine integers (`uint64`) are modelled as `Nat` with explicit reduction
modulo `2^64` at each arithmetic step that the Go code performs on `uint64`
values.  The external disassembler libraries (`golang.org/x/arch/x86/x86asm`
and `arm64asm`) are modelled as executable decoders over the instruction
subset that the detectors consume (PUSH/MOV/SUB/LEA/RET/CALL/JMP on AMD64,
BL/B on ARM64); all other byte sequences are decode failures, which the
scanners absorb by advancing, exactly as the Go code does.
-/

namespace Resurgo

/-- `2^64`, the modulus of Go's `uint64` arithmetic. -/
def U64MOD : Nat := 2 ^ 64

/-- Reduction of a natural number into `uint64` range. -/
def u64 (n : Nat) : Nat := n % U64MOD

/-- Go's `uint64(x)` conversion of a (signed) `int64`-valued quantity:
two's-complement reinterpretation modulo `2^64`. -/
def u64ofInt (i : Int) : Nat := (i % (U64MOD : Int)).toNat

/-- Go `uint64` subtraction `a - b` (wrap-around), for `a < 2^64`. -/
def u64sub (a b : Nat) : Nat := (a + U64MOD - b % U64MOD) % U64MOD

/-- Sign extension of an 8-bit byte value to a signed integer. -/
def sext8 (b : Nat) : Int := if b < 2 ^ 7 then (b : Int) else (b : Int) - 2 ^ 8

/-- Sign extension of a 32-bit value to a signed integer. -/
def sext32 (n : Nat) : Int := if n < 2 ^ 31 then (n : Int) else (n : Int) - 2 ^ 32

/-- Sign extension of a 26-bit value to a signed integer. -/
def sext26 (n : Nat) : Int := if n < 2 ^ 25 then (n : Int) else (n : Int) - 2 ^ 26

/-- Little-endian 32-bit value from four bytes. -/
def le32 (b0 b1 b2 b3 : Nat) : Nat := b0 + 2 ^ 8 * b1 + 2 ^ 16 * b2 + 2 ^ 24 * b3

/-- x86-64 registers the detectors distinguish (`x86asm.Reg` restricted to
the registers reachable by the modelled encodings, plus `RIP`). -/
inductive X86Reg
  | RAX | RCX | RDX | RBX | RSP | RBP | RSI | RDI | RIP
  deriving DecidableEq, Repr

/-- ModRM register numbers 0–7 as 64-bit GPRs. -/
def gpr : Nat → X86Reg
  | 0 => .RAX
  | 1 => .RCX
  | 2 => .RDX
  | 3 => .RBX
  | 4 => .RSP
  | 5 => .RBP
  | 6 => .RSI
  | _ => .RDI

/-- An `x86asm` operand: the sum over register / immediate / PC-relative /
memory shapes that `extractTargetAMD64` and the prologue patterns consume.
`mem b i s d` mirrors `x86asm.Mem` with `Base`, `Index` (absent = `none`,
mirroring the zero `Reg`), `Scale` and signed `Disp`. -/
inductive X86Arg
  | reg (r : X86Reg)
  | imm (v : Int)
  | rel (v : Int)
  | mem (base : Option X86Reg) (index : Option X86Reg) (scale : Nat) (disp : Int)
  deriving DecidableEq, Repr

/-- Opcode identities the detectors distinguish (`x86asm.Op` restricted). -/
inductive X86Op
  | PUSH | MOV | SUB | LEA | RET | CALL | JMP | NOP
  deriving DecidableEq, Repr

/-- A decoded x86-64 instruction: `x86asm.Inst` restricted to the fields the
detectors read (`Op`, `Args`, `Len`). -/
structure X86Inst where
  op : X86Op
  args : List X86Arg
  len : Nat
  deriving DecidableEq, Repr

/-- ModRM decoding of the operand of `FF /2` (CALL) and `FF /4` (JMP):
given the ModRM byte and the following bytes, produce the operand and the
total instruction length (opcode byte included).  SIB forms are outside the
modelled subset and decode as failures. -/
def decodeFFArg (m : Nat) (rest : List Nat) : Option (X86Arg × Nat) :=
  let md := m / 64
  let rm := m % 8
  if md = 3 then
    some (.reg (gpr rm), 2)
  else if rm = 4 then
    none
  else if md = 0 then
    if rm = 5 then
      match rest with
      | b0 :: b1 :: b2 :: b3 :: _ =>
          some (.mem (some .RIP) none 0 (sext32 (le32 b0 b1 b2 b3)), 6)
      | _ => none
    else
      some (.mem (some (gpr rm)) none 0 0, 2)
  else if md = 1 then
    match rest with
    | b :: _ => some (.mem (some (gpr rm)) none 0 (sext8 b), 3)
    | _ => none
  else
    match rest with
    | b0 :: b1 :: b2 :: b3 :: _ =>
        some (.mem (some (gpr rm)) none 0 (sext32 (le32 b0 b1 b2 b3)), 6)
    | _ => none

/-- Model of `x86asm.Decode(bytes, 64)` on the instruction subset the
detectors consume: `NOP`, `PUSH r64`, `RET`, `CALL rel32`, `JMP rel32`,
`JMP rel8`, `FF /2` and `FF /4` r/m forms, `REX.W MOV r64, r64`, and
`REX.W SUB r64, imm8/imm32`.  Every other byte sequence is a decode
failure, which the linear scanners absorb by advancing one byte. -/
def x86Decode : List Nat → Option X86Inst
  | 0x90 :: _ => some ⟨.NOP, [], 1⟩
  | 0x55 :: _ => some ⟨.PUSH, [.reg .RBP], 1⟩
  | 0x53 :: _ => some ⟨.PUSH, [.reg .RBX], 1⟩
  | 0xC3 :: _ => some ⟨.RET, [], 1⟩
  | 0xE8 :: b0 :: b1 :: b2 :: b3 :: _ =>
      some ⟨.CALL, [.rel (sext32 (le32 b0 b1 b2 b3))], 5⟩
  | 0xE9 :: b0 :: b1 :: b2 :: b3 :: _ =>
      some ⟨.JMP, [.rel (sext32 (le32 b0 b1 b2 b3))], 5⟩
  | 0xEB :: b :: _ => some ⟨.JMP, [.rel (sext8 b)], 2⟩
  | 0xFF :: m :: rest =>
      match decodeFFArg m rest with
      | some (arg, len) =>
          if (m / 8) % 8 = 2 then some ⟨.CALL, [arg], len⟩
          else if (m / 8) % 8 = 4 then some ⟨.JMP, [arg], len⟩
          else none
      | none => none
  | 0x48 :: 0x89 :: m :: _ =>
      if 0xC0 ≤ m then some ⟨.MOV, [.reg (gpr (m % 8)), .reg (gpr ((m / 8) % 8))], 3⟩
      else none
  | 0x48 :: 0x83 :: m :: b :: _ =>
      if 0xC0 ≤ m ∧ (m / 8) % 8 = 5 then some ⟨.SUB, [.reg (gpr (m % 8)), .imm (sext8 b)], 4⟩
      else none
  | 0x48 :: 0x81 :: m :: b0 :: b1 :: b2 :: b3 :: _ =>
      if 0xC0 ≤ m ∧ (m / 8) % 8 = 5 then
        some ⟨.SUB, [.reg (gpr (m % 8)), .imm (sext32 (le32 b0 b1 b2 b3))], 7⟩
      else none
  | _ => none

/-- `CallSiteType` string constants. -/
def CallSiteCall : String := "call"

/-- `CallSiteJump` constant. -/
def CallSiteJump : String := "jump"

/-- `AddressingModePCRelative` constant. -/
def AddressingModePCRelative : String := "pc-relative"

/-- `AddressingModeAbsolute` constant. -/
def AddressingModeAbsolute : String := "absolute"

/-- `AddressingModeRegisterIndirect` constant. -/
def AddressingModeRegisterIndirect : String := "register-indirect"

/-- `ConfidenceHigh` constant. -/
def ConfidenceHigh : String := "high"

/-- `ConfidenceMedium` constant. -/
def ConfidenceMedium : String := "medium"

/-- `ConfidenceLow` constant. -/
def ConfidenceLow : String := "low"

/-- `ConfidenceNone` constant. -/
def ConfidenceNone : String := "none"

/-- `CallSiteEdge`: a detected call or jump with source, target, kind,
addressing mode and confidence (the Go struct's enums are strings). -/
structure CallSiteEdge where
  sourceAddr : Nat
  targetAddr : Nat
  type : String
  addressMode : String
  confidence : String
  deriving DecidableEq, Repr

/-- `extractTargetAMD64`: extract the target of a decoded CALL/JMP from its
first operand, exactly as in the source — `Rel` gives PC-relative with the
base confidence, `Mem` with `Base=RIP, Index=0` gives PC-relative Medium,
`Mem` with no base/index gives Absolute, any other memory or register form
gives RegisterIndirect/None, and any other operand gives no edge. -/
def extractTargetAMD64 (inst : X86Inst) (sourceAddr : Nat) (cfType : String)
    (baseConfidence : String) : Option CallSiteEdge :=
  match inst.args.head? with
  | some (.rel d) =>
      some { sourceAddr := sourceAddr
             targetAddr := u64 (sourceAddr + inst.len + u64ofInt d)
             type := cfType
             addressMode := AddressingModePCRelative
             confidence := baseConfidence }
  | some (.mem b i _ d) =>
      if b = some X86Reg.RIP ∧ i = none then
        some { sourceAddr := sourceAddr
               targetAddr := u64 (sourceAddr + inst.len + u64ofInt d)
               type := cfType
               addressMode := AddressingModePCRelative
               confidence := ConfidenceMedium }
      else if b = none ∧ i = none then
        some { sourceAddr := sourceAddr
               targetAddr := u64ofInt d
               type := cfType
               addressMode := AddressingModeAbsolute
               confidence := baseConfidence }
      else
        some { sourceAddr := sourceAddr
               targetAddr := 0
               type := cfType
               addressMode := AddressingModeRegisterIndirect
               confidence := ConfidenceNone }
  | some (.reg _) =>
      some { sourceAddr := sourceAddr
             targetAddr := 0
             type := cfType
             addressMode := AddressingModeRegisterIndirect
             confidence := ConfidenceNone }
  | _ => none

/-- The four-byte CET landing-pad test of `detectCallSitesAMD64`: the next
four bytes are `F3 0F 1E FA` (ENDBR64) or `F3 0F 1E FB` (ENDBR32). -/
def isENDBRAt (code : List Nat) (off : Nat) : Bool :=
  decide (off + 4 ≤ code.length) &&
    code.getD off 0 == 0xF3 && code.getD (off + 1) 0 == 0x0F &&
    code.getD (off + 2) 0 == 0x1E &&
    (code.getD (off + 3) 0 == 0xFA || code.getD (off + 3) 0 == 0xFB)

/-- The edges `detectCallSitesAMD64` emits for one decoded instruction:
`CALL` with base confidence High, unconditional `JMP` with base confidence
Medium, nothing otherwise. -/
def amd64Emit (inst : X86Inst) (addr : Nat) : List CallSiteEdge :=
  match inst.op with
  | .CALL => (extractTargetAMD64 inst addr CallSiteCall ConfidenceHigh).toList
  | .JMP => (extractTargetAMD64 inst addr CallSiteJump ConfidenceMedium).toList
  | _ => []

/-- The linear-scan loop of `detectCallSitesAMD64`, with explicit fuel
bounding the number of iterations (each Go iteration advances by at least
one byte, so `code.length + 1` fuel always suffices).  At each position it
first skips a CET landing pad, then attempts a decode, advancing one byte
on failure and `inst.len` bytes on success. -/
def scanCallSitesAMD64 (code : List Nat) (base : Nat) : Nat → Nat → List CallSiteEdge
  | 0, _ => []
  | fuel + 1, offset =>
    if offset < code.length then
      if isENDBRAt code offset then
        scanCallSitesAMD64 code base fuel (offset + 4)
      else
        match x86Decode (code.drop offset) with
        | none => scanCallSitesAMD64 code base fuel (offset + 1)
        | some inst =>
            amd64Emit inst (u64 (base + offset)) ++
              scanCallSitesAMD64 code base fuel (offset + inst.len)
    else []

/-- `detectCallSitesAMD64`: scan the whole buffer from its base address. -/
def detectCallSitesAMD64 (code : List Nat) (base : Nat) : List CallSiteEdge :=
  scanCallSitesAMD64 code base (code.length + 1) 0

/-- ARM64 operand: the PC-relative offset and condition-field shapes that
`detectCallSitesARM64` inspects (`arm64asm.PCRel`, `arm64asm.Cond`). -/
inductive A64Arg
  | pcrel (d : Int)
  | cond (c : Nat)
  deriving DecidableEq, Repr

/-- ARM64 opcode identities the call-site detector distinguishes. -/
inductive A64Op
  | BL | B
  deriving DecidableEq, Repr

/-- A decoded ARM64 instruction (`arm64asm.Inst` restricted to `Op`, `Args`). -/
structure A64Inst where
  op : A64Op
  args : List A64Arg
  deriving DecidableEq, Repr

/-- Model of `arm64asm.Decode` on a 4-byte little-endian slice, restricted
to the branch instructions the detector consumes: `BL` (top six bits
`100101`) and unconditional `B` (top six bits `000101`), whose first
argument is the sign-extended 26-bit immediate times 4.  Any other word is
a decode failure, which the scanner skips. -/
def arm64Decode : List Nat → Option A64Inst
  | b0 :: b1 :: b2 :: b3 :: _ =>
      let w := le32 b0 b1 b2 b3
      if w / 2 ^ 26 = 0b100101 then
        some ⟨.BL, [.pcrel (sext26 (w % 2 ^ 26) * 4)]⟩
      else if w / 2 ^ 26 = 0b000101 then
        some ⟨.B, [.pcrel (sext26 (w % 2 ^ 26) * 4)]⟩
      else none
  | _ => none

/-- `extractTargetARM64`: the branch target is `source + offset` for a
`PCRel` first argument; any other first argument yields no edge. -/
def extractTargetARM64 (inst : A64Inst) (sourceAddr : Nat) (cfType : String)
    (confidence : String) : Option CallSiteEdge :=
  match inst.args.head? with
  | some (.pcrel d) =>
      some { sourceAddr := sourceAddr
             targetAddr := u64 (sourceAddr + u64ofInt d)
             type := cfType
             addressMode := AddressingModePCRelative
             confidence := confidence }
  | _ => none

/-- Whether an argument is a condition field (`arm64asm.Cond`). -/
def isCondArg : A64Arg → Bool
  | .cond _ => true
  | _ => false

/-- The edges `detectCallSitesARM64` emits for the 4-byte slot at index `k`
(byte offset `4*k`): `BL` gives a Call/High edge, `B` gives a Jump edge
whose confidence is Low when a condition argument is present and Medium
otherwise; other opcodes and decode failures emit nothing. -/
def arm64EmitAt (code : List Nat) (base : Nat) (k : Nat) : List CallSiteEdge :=
  match arm64Decode ((code.drop (4 * k)).take 4) with
  | none => []
  | some inst =>
      let addr := u64 (base + 4 * k)
      match inst.op with
      | .BL => (extractTargetARM64 inst addr CallSiteCall ConfidenceHigh).toList
      | .B =>
          let conf := if inst.args.any isCondArg then ConfidenceLow else ConfidenceMedium
          (extractTargetARM64 inst addr CallSiteJump conf).toList

/-- `detectCallSitesARM64`: the fixed-stride loop
`for offset := 0; offset+4 <= len(code); offset += 4` visits exactly the
slots `k < code.length / 4`. -/
def detectCallSitesARM64 (code : List Nat) (base : Nat) : List CallSiteEdge :=
  (List.range (code.length / 4)).flatMap (arm64EmitAt code base)

/-- `PrologueClassic` constant. -/
def PrologueClassic : String := "classic"

/-- `PrologueNoFramePointer` constant. -/
def PrologueNoFramePointer : String := "no-frame-pointer"

/-- `ProloguePushOnly` constant. -/
def ProloguePushOnly : String := "push-only"

/-- `PrologueLEABased` constant. -/
def PrologueLEABased : String := "lea-based"

/-- A detected function prologue record. -/
structure Prologue where
  address : Nat
  type : String
  instructions : String
  deriving DecidableEq, Repr

/-- Lowercase hexadecimal rendering of a natural number (Go's `%x`). -/
def hexStr (n : Nat) : String := String.mk (Nat.toDigits 16 n)

/-- The boundary predicate of the prologue scanner:
`prevInsn == nil || prevInsn.Op == RET`. -/
def atBoundary : Option X86Inst → Bool
  | none => true
  | some p => p.op == X86Op.RET

/-- The records the AMD64 prologue scanner emits for one decoded
instruction, given the one-instruction window `prev` and the current
address: the four patterns of `DetectPrologues` in `detector.go`, tested in
source order (Classic, NoFramePointer, PushOnly, LeaBased). -/
def amd64PrologueEmit (prev : Option X86Inst) (inst : X86Inst) (addr : Nat) : List Prologue :=
  let boundary := atBoundary prev = true
  (match prev with
   | some p =>
       if p.op = X86Op.PUSH ∧ p.args.head? = some (.reg .RBP) ∧
           inst.op = X86Op.MOV ∧ inst.args.head? = some (.reg .RBP) ∧
           inst.args[1]? = some (.reg .RSP) then
         [{ address := u64sub addr p.len
            type := PrologueClassic
            instructions := "push rbp; mov rbp, rsp" }]
       else []
   | none => []) ++
  (if inst.op = X86Op.SUB ∧ inst.args.head? = some (.reg .RSP) then
     match inst.args[1]? with
     | some (X86Arg.imm v) =>
         if 0 < v ∧ boundary then
           [{ address := addr
              type := PrologueNoFramePointer
              instructions := "sub rsp, 0x" ++ hexStr v.toNat }]
         else []
     | _ => []
   else []) ++
  (if inst.op = X86Op.PUSH ∧ inst.args.head? = some (.reg .RBP) ∧ boundary then
     [{ address := addr, type := ProloguePushOnly, instructions := "push rbp" }]
   else []) ++
  (if inst.op = X86Op.LEA ∧ inst.args.head? = some (.reg .RSP) ∧ boundary then
     [{ address := addr
        type := PrologueLEABased
        instructions := "lea rsp, [rsp-offset]" }]
   else [])

/-- The linear-scan loop of `DetectPrologues` (`detector.go`), with fuel as
in `scanCallSitesAMD64`.  A decode failure advances one byte and clears the
one-instruction window `prev`; a success emits the matching pattern records
and advances by the instruction length. -/
def scanProloguesAMD64 (code : List Nat) (base : Nat) :
    Nat → Nat → Option X86Inst → List Prologue
  | 0, _, _ => []
  | fuel + 1, offset, prev =>
    if offset < code.length then
      match x86Decode (code.drop offset) with
      | none => scanProloguesAMD64 code base fuel (offset + 1) none
      | some inst =>
          amd64PrologueEmit prev inst (u64 (base + offset)) ++
            scanProloguesAMD64 code base fuel (offset + inst.len) (some inst)
    else []

/-- `DetectPrologues(code, baseAddr)` of `detector.go` (the AMD64 prologue
scanner): scan from offset 0 with an empty window. -/
def detectProloguesAMD64 (code : List Nat) (base : Nat) : List Prologue :=
  scanProloguesAMD64 code base (code.length + 1) 0 none

/-- ARM64 word predicate: `STP X29, X30, [SP, #-16]!`. -/
def isStpPairW (w : Nat) : Bool := w == 0xA9BF7BFD

/-- ARM64 word predicate: `MOV X29, SP`. -/
def isMovFpW (w : Nat) : Bool := w == 0x910003FD

/-- ARM64 word predicate: `RET`. -/
def isRetW (w : Nat) : Bool := w == 0xD65F03C0

/-- ARM64 word predicate: `SUB SP, SP, #imm12` (no shift). -/
def isSubSpW (w : Nat) : Bool := w &&& 0xFF8003FF == 0xD10003FF

/-- The 12-bit immediate of an ARM64 `SUB SP, SP, #imm12`. -/
def subSpImm (w : Nat) : Nat := (w >>> 10) &&& 0xFFF

/-- The little-endian 32-bit word of the 4-byte slot `k` of the buffer. -/
def a64WordAt (code : List Nat) (k : Nat) : Nat :=
  le32 (code.getD (4 * k) 0) (code.getD (4 * k + 1) 0)
    (code.getD (4 * k + 2) 0) (code.getD (4 * k + 3) 0)

/-- Modelled from the spec: the resurgo ARM64 prologue scanner is not among
the provided sources (only its dispatch callers are), so it is modelled
from §4.B of the specification — a fixed-stride scan over 4-byte slots
(terminating when fewer than 4 bytes remain) that emits `StpFramePair` for
`STP X29, X30, [SP, #-16]!` followed by `MOV X29, SP`, `StpOnly` for the
STP pair without that follower, and `SubSp` for `SUB SP, SP, #imm` with a
positive immediate gated by the boundary predicate (start of buffer or
previous slot a `RET`). -/
def a64PrologueAt (code : List Nat) (base : Nat) (k : Nat) : List Prologue :=
  let w := a64WordAt code k
  let addr := u64 (base + 4 * k)
  let boundary := k == 0 || isRetW (a64WordAt code (k - 1))
  if isStpPairW w then
    if k + 1 < code.length / 4 && isMovFpW (a64WordAt code (k + 1)) then
      [{ address := addr
         type := "stp-frame-pair"
         instructions := "stp x29, x30, [sp, #-16]!; mov x29, sp" }]
    else
      [{ address := addr
         type := "stp-only"
         instructions := "stp x29, x30, [sp, #-16]!" }]
  else if isSubSpW w && 0 < subSpImm w && boundary then
    [{ address := addr
       type := "sub-sp"
       instructions := "sub sp, sp, 0x" ++ hexStr (subSpImm w) }]
  else []

/-- Modelled from the spec: ARM64 prologue detection over all full 4-byte
slots (see `a64PrologueAt`). -/
def detectProloguesARM64 (code : List Nat) (base : Nat) : List Prologue :=
  (List.range (code.length / 4)).flatMap (a64PrologueAt code base)

/-- `ArchAMD64` constant (the `Arch` tag is a Go string type). -/
def ArchAMD64 : String := "amd64"

/-- `ArchARM64` constant. -/
def ArchARM64 : String := "arm64"

/-- Modelled from the spec: the three-argument `resurgo.DetectPrologues`
dispatch is not among the provided sources (its AMD64 body is
`detector.go`'s `DetectPrologues`, which is); per §3/§6 any architecture
tag outside the closed set is a hard error. -/
def DetectPrologues (code : List Nat) (base : Nat) (arch : String) :
    Except String (List Prologue) :=
  if arch = ArchAMD64 then .ok (detectProloguesAMD64 code base)
  else if arch = ArchARM64 then .ok (detectProloguesARM64 code base)
  else .error ("unsupported architecture: " ++ arch)

/-- `DetectCallSites`: dispatch on the architecture tag; any value outside
`{amd64, arm64}` is an error. -/
def DetectCallSites (code : List Nat) (base : Nat) (arch : String) :
    Except String (List CallSiteEdge) :=
  if arch = ArchAMD64 then .ok (detectCallSitesAMD64 code base)
  else if arch = ArchARM64 then .ok (detectCallSitesARM64 code base)
  else .error ("unsupported architecture: " ++ arch)

/-- `DetectionPrologueOnly` constant. -/
def DetectionPrologueOnly : String := "prologue-only"

/-- `DetectionCallTarget` constant. -/
def DetectionCallTarget : String := "call-target"

/-- `DetectionJumpTarget` constant. -/
def DetectionJumpTarget : String := "jump-target"

/-- `DetectionBoth` constant; per the source's declaration comment this
means "Prologue + called/jumped to". -/
def DetectionBoth : String := "both"

/-- `FunctionCandidate`: a fused detection result. -/
structure FunctionCandidate where
  address : Nat
  detectionType : String
  prologueType : String
  calledFrom : List Nat
  jumpedFrom : List Nat
  confidence : String
  deriving DecidableEq, Repr

/-- Step 1 of the fusion map build: `candidates[p.Address] = {...}` —
insert a prologue-only candidate, overwriting any entry at that address.
The Go map is modelled as a list of candidates with pairwise-distinct
addresses. -/
def addPrologueCandidate (m : List FunctionCandidate) (p : Prologue) :
    List FunctionCandidate :=
  let c : FunctionCandidate :=
    { address := p.address
      detectionType := DetectionPrologueOnly
      prologueType := p.type
      calledFrom := []
      jumpedFrom := []
      confidence := ConfidenceMedium }
  if m.any (fun x => x.address == p.address) then
    m.map (fun x => if x.address == p.address then c else x)
  else m ++ [c]

/-- Step 2 of the fusion map build: process one edge.  Low/None edges are
filtered; an edge whose target has an existing entry upgrades it to
`both`/High and appends the source to the matching backlink list; otherwise
a new call-target or jump-target candidate is created with Medium
confidence. -/
def applyEdge (m : List FunctionCandidate) (e : CallSiteEdge) :
    List FunctionCandidate :=
  if e.confidence ≠ ConfidenceHigh ∧ e.confidence ≠ ConfidenceMedium then m
  else if m.any (fun x => x.address == e.targetAddr) then
    m.map (fun c =>
      if c.address == e.targetAddr then
        { c with
          detectionType := DetectionBoth
          confidence := ConfidenceHigh
          calledFrom := if e.type == CallSiteCall then c.calledFrom ++ [e.sourceAddr]
                        else c.calledFrom
          jumpedFrom := if e.type == CallSiteCall then c.jumpedFrom
                        else c.jumpedFrom ++ [e.sourceAddr] }
      else c)
  else
    m ++ [{ address := e.targetAddr
            detectionType := if e.type == CallSiteJump then DetectionJumpTarget
                             else DetectionCallTarget
            prologueType := ""
            calledFrom := if e.type == CallSiteCall then [e.sourceAddr] else []
            jumpedFrom := if e.type == CallSiteCall then [] else [e.sourceAddr]
            confidence := ConfidenceMedium }]

/-- Insertion into a list sorted ascending by address. -/
def insertByAddr (c : FunctionCandidate) : List FunctionCandidate → List FunctionCandidate
  | [] => [c]
  | d :: rest => if c.address ≤ d.address then c :: d :: rest else d :: insertByAddr c rest

/-- Sort candidates ascending by address (models
`slices.SortFunc(result, cmp.Compare on Address)`; with pairwise-distinct
addresses any comparison sort produces this unique order). -/
def sortByAddr : List FunctionCandidate → List FunctionCandidate
  | [] => []
  | c :: rest => insertByAddr c (sortByAddr rest)

/-- The fusion of prologue records and edge records of `DetectFunctions`:
build the address-keyed candidate map from prologues, fold the edges over
it, and return the entries sorted ascending by address. -/
def fuseCandidates (prologues : List Prologue) (edges : List CallSiteEdge) :
    List FunctionCandidate :=
  sortByAddr (edges.foldl applyEdge (prologues.foldl addPrologueCandidate []))

/-- `DetectFunctions`: run prologue detection, then call-site detection,
propagating either error, and fuse the two record streams. -/
def DetectFunctions (code : List Nat) (base : Nat) (arch : String) :
    Except String (List FunctionCandidate) :=
  match DetectPrologues code base arch with
  | .error e => .error ("failed to detect prologues: " ++ e)
  | .ok prologues =>
    match DetectCallSites code base arch with
    | .error e => .error ("failed to detect call sites: " ++ e)
    | .ok edges => .ok (fuseCandidates prologues edges)

end Resurgo

section Sanity

open Resurgo

example : detectCallSitesAMD64 [0xE8, 0x0B, 0x00, 0x00, 0x00] 0 =
    [⟨0, 0x10, CallSiteCall, AddressingModePCRelative, ConfidenceHigh⟩] := by decide

example : detectCallSitesAMD64 [0xE8, 0xE0, 0xFF, 0xFF, 0xFF] 0x100 =
    [⟨0x100, 0xE5, CallSiteCall, AddressingModePCRelative, ConfidenceHigh⟩] := by decide

example : detectCallSitesAMD64 [0xFF, 0xD0] 0x200 =
    [⟨0x200, 0, CallSiteCall, AddressingModeRegisterIndirect, ConfidenceNone⟩] := by decide

example : detectCallSitesAMD64 [0xFF, 0x15, 0x34, 0x12, 0x00, 0x00] 0x1000 =
    [⟨0x1000, 0x223A, CallSiteCall, AddressingModePCRelative, ConfidenceMedium⟩] := by decide

example : detectCallSitesAMD64 [0xF3, 0x0F, 0x1E, 0xFA, 0xE8, 0x17, 0x00, 0x00, 0x00] 0 =
    [⟨0x04, 0x20, CallSiteCall, AddressingModePCRelative, ConfidenceHigh⟩] := by decide

example : detectCallSitesAMD64 [0xE9, 0x1B, 0x00, 0x00, 0x00] 0 =
    [⟨0, 0x20, CallSiteJump, AddressingModePCRelative, ConfidenceMedium⟩] := by decide

example : detectCallSitesAMD64 [0xEB, 0x0E] 0 =
    [⟨0, 0x10, CallSiteJump, AddressingModePCRelative, ConfidenceMedium⟩] := by decide

example : detectCallSitesAMD64 [0xFF, 0xE0] 0x400 =
    [⟨0x400, 0, CallSiteJump, AddressingModeRegisterIndirect, ConfidenceNone⟩] := by decide

example : detectCallSitesAMD64 [0xFF, 0x53, 0x10] 0x300 =
    [⟨0x300, 0, CallSiteCall, AddressingModeRegisterIndirect, ConfidenceNone⟩] := by decide

example : detectCallSitesAMD64 [0x90, 0x90, 0x90] 0 = [] := by decide

-- ARM64: BL +0x1000 at 0x1000 (word 0x94000400, LE bytes)
example : detectCallSitesARM64 [0x00, 0x04, 0x00, 0x94] 0x1000 =
    [⟨0x1000, 0x2000, CallSiteCall, AddressingModePCRelative, ConfidenceHigh⟩] := by decide

-- ARM64: BL -0x100 at 0x2000 (word 0x97FFFFC0)
example : detectCallSitesARM64 [0xC0, 0xFF, 0xFF, 0x97] 0x2000 =
    [⟨0x2000, 0x1F00, CallSiteCall, AddressingModePCRelative, ConfidenceHigh⟩] := by decide

-- ARM64: B +0x100 at 0x1000 (word 0x14000040)
example : detectCallSitesARM64 [0x40, 0x00, 0x00, 0x14] 0x1000 =
    [⟨0x1000, 0x1100, CallSiteJump, AddressingModePCRelative, ConfidenceMedium⟩] := by decide

-- prologues: nop; push rbp; mov rbp, rsp at base 0x1000
example : detectProloguesAMD64 [0x90, 0x55, 0x48, 0x89, 0xE5] 0x1000 =
    [⟨0x1001, PrologueClassic, "push rbp; mov rbp, rsp"⟩] := by decide

-- push rbp directly at a boundary fires PushOnly, then Classic on the next step
example : detectProloguesAMD64 [0x55, 0x48, 0x89, 0xE5] 0x1000 =
    [⟨0x1000, ProloguePushOnly, "push rbp"⟩,
     ⟨0x1000, PrologueClassic, "push rbp; mov rbp, rsp"⟩] := by decide

-- sub rsp, 0x20 at start of buffer
example : detectProloguesAMD64 [0x48, 0x83, 0xEC, 0x20] 0 =
    [⟨0, PrologueNoFramePointer, "sub rsp, 0x20"⟩] := by decide

-- DetectFunctions on the documented example layout
example :
    DetectFunctions
      ((([0x55, 0x48, 0x89, 0xE5, 0xE8, 0x17, 0x00, 0x00, 0x00, 0xC3] ++
        List.replicate 22 0) ++ [0x55, 0x48, 0x89, 0xE5]) : List Nat) 0x1000 ArchAMD64 =
    .ok [⟨0x1000, DetectionPrologueOnly, PrologueClassic, [], [], ConfidenceMedium⟩,
         ⟨0x1020, DetectionBoth, PrologueClassic, [0x1004], [], ConfidenceHigh⟩] := by rfl

end Sanity

namespace Resurgo

theorem u64_eq_of_lt {n : Nat} (h : n < U64MOD) : u64 n = n := Nat.mod_eq_of_lt h

theorem u64sub_eq {a b : Nat} (hb : b ≤ a) (ha : a < U64MOD) : u64sub a b = a - b := by
  unfold u64sub
  rw [Nat.mod_eq_of_lt (lt_of_le_of_lt hb ha)]
  have h1 : a + U64MOD - b = U64MOD + (a - b) := by omega
  rw [h1, Nat.add_mod_left]
  exact Nat.mod_eq_of_lt (by omega)

theorem x86Decode_nil : x86Decode [] = none := rfl

theorem lt_length_of_x86Decode_drop {code : List Nat} {k : Nat} {inst : X86Inst}
    (h : x86Decode (code.drop k) = some inst) : k < code.length := by
  by_contra hk
  have : code.drop k = [] := List.drop_eq_nil_iff.mpr (by omega)
  rw [this, x86Decode_nil] at h
  exact Option.noConfusion h

theorem extractTargetAMD64_source {inst : X86Inst} {src : Nat} {t c : String}
    {e : CallSiteEdge} (h : extractTargetAMD64 inst src t c = some e) :
    e.sourceAddr = src := by
  unfold extractTargetAMD64 at h
  split at h
  · cases h; rfl
  · split at h
    · cases h; rfl
    · split at h
      · cases h; rfl
      · cases h; rfl
  · cases h; rfl
  · exact Option.noConfusion h

theorem extractTargetAMD64_pcrel {inst : X86Inst} {src : Nat} {t c : String}
    {e : CallSiteEdge} (h : extractTargetAMD64 inst src t c = some e)
    (hm : e.addressMode = AddressingModePCRelative) :
    (∃ d, inst.args.head? = some (X86Arg.rel d) ∧
        e.targetAddr = u64 (src + inst.len + u64ofInt d) ∧ e.confidence = c) ∨
    (∃ s d, inst.args.head? = some (X86Arg.mem (some X86Reg.RIP) none s d) ∧
        e.targetAddr = u64 (src + inst.len + u64ofInt d) ∧
        e.confidence = ConfidenceMedium) := by
  unfold extractTargetAMD64 at h
  split at h
  · rename_i d heq
    cases h
    exact .inl ⟨d, heq, rfl, rfl⟩
  · rename_i b i s d heq
    split at h
    · rename_i hri
      cases h
      exact .inr ⟨s, d, by rw [heq, hri.1, hri.2], rfl, rfl⟩
    · split at h
      · cases h
        exact absurd hm (by simp [AddressingModeAbsolute, AddressingModePCRelative])
      · cases h
        exact absurd hm
          (by simp [AddressingModeRegisterIndirect, AddressingModePCRelative])
  · rename_i r heq
    cases h
    exact absurd hm
      (by simp [AddressingModeRegisterIndirect, AddressingModePCRelative])
  · exact Option.noConfusion h

theorem mem_amd64Emit {inst : X86Inst} {a : Nat} {e : CallSiteEdge}
    (h : e ∈ amd64Emit inst a) :
    (inst.op = X86Op.CALL ∧ extractTargetAMD64 inst a CallSiteCall ConfidenceHigh = some e) ∨
    (inst.op = X86Op.JMP ∧ extractTargetAMD64 inst a CallSiteJump ConfidenceMedium = some e) := by
  unfold amd64Emit at h
  split at h
  · exact .inl ⟨by assumption, by simpa using h⟩
  · exact .inr ⟨by assumption, by simpa using h⟩
  · simp at h

theorem mem_scanCallSitesAMD64 {code : List Nat} {base : Nat} :
    ∀ {fuel offset : Nat} {e : CallSiteEdge},
      e ∈ scanCallSitesAMD64 code base fuel offset →
      ∃ off inst, off < code.length ∧ x86Decode (code.drop off) = some inst ∧
        e ∈ amd64Emit inst (u64 (base + off)) := by
  intro fuel
  induction fuel with
  | zero => intro offset e h; simp [scanCallSitesAMD64] at h
  | succ n ih =>
    intro offset e h
    simp only [scanCallSitesAMD64] at h
    split at h
    · rename_i hoff
      split at h
      · exact ih h
      · split at h
        · exact ih h
        · rename_i inst hdec
          rcases List.mem_append.mp h with h1 | h2
          · exact ⟨offset, inst, hoff, hdec, h1⟩
          · exact ih h2
    · simp at h

/-- Every edge of the AMD64 call-site detector comes from a successful
decode at some in-bounds offset, emitted as a CALL (base confidence High)
or unconditional JMP (base confidence Medium). -/
theorem amd64_edge_spec {code : List Nat} {base : Nat} {e : CallSiteEdge}
    (h : e ∈ detectCallSitesAMD64 code base) :
    ∃ off inst, off < code.length ∧ x86Decode (code.drop off) = some inst ∧
      ((inst.op = X86Op.CALL ∧
          extractTargetAMD64 inst (u64 (base + off)) CallSiteCall ConfidenceHigh = some e) ∨
       (inst.op = X86Op.JMP ∧
          extractTargetAMD64 inst (u64 (base + off)) CallSiteJump ConfidenceMedium = some e)) := by
  obtain ⟨off, inst, hlt, hdec, hmem⟩ := mem_scanCallSitesAMD64 h
  exact ⟨off, inst, hlt, hdec, mem_amd64Emit hmem⟩

theorem extractTargetARM64_spec {inst : A64Inst} {src : Nat} {t c : String}
    {e : CallSiteEdge} (h : extractTargetARM64 inst src t c = some e) :
    ∃ d, inst.args.head? = some (A64Arg.pcrel d) ∧
      e = ⟨src, u64 (src + u64ofInt d), t, AddressingModePCRelative, c⟩ := by
  unfold extractTargetARM64 at h
  split at h
  · rename_i d heq
    cases h
    exact ⟨d, heq, rfl⟩
  · exact Option.noConfusion h

theorem mem_arm64EmitAt {code : List Nat} {base k : Nat} {e : CallSiteEdge}
    (h : e ∈ arm64EmitAt code base k) :
    ∃ inst, arm64Decode ((code.drop (4 * k)).take 4) = some inst ∧
      ((inst.op = A64Op.BL ∧
          extractTargetARM64 inst (u64 (base + 4 * k)) CallSiteCall ConfidenceHigh = some e) ∨
       (inst.op = A64Op.B ∧ ∃ conf, (conf = ConfidenceLow ∨ conf = ConfidenceMedium) ∧
          extractTargetARM64 inst (u64 (base + 4 * k)) CallSiteJump conf = some e)) := by
  unfold arm64EmitAt at h
  split at h
  · simp at h
  · rename_i inst hdec
    refine ⟨inst, hdec, ?_⟩
    split at h
    · exact .inl ⟨by assumption, by simpa using h⟩
    · refine .inr ⟨by assumption, ?_⟩
      by_cases hc : inst.args.any isCondArg
      · exact ⟨ConfidenceLow, .inl rfl, by simp only [hc, if_true] at h; simpa using h⟩
      · exact ⟨ConfidenceMedium, .inr rfl,
          by simp only [hc, if_false] at h; simpa using h⟩

/-- Every edge of the ARM64 call-site detector comes from a decoded `BL`
(Call/High) or `B` (Jump, Low when conditional, Medium otherwise) at an
in-bounds 4-byte slot. -/
theorem arm64_edge_spec {code : List Nat} {base : Nat} {e : CallSiteEdge}
    (h : e ∈ detectCallSitesARM64 code base) :
    ∃ k inst, 4 * k + 4 ≤ code.length ∧
      arm64Decode ((code.drop (4 * k)).take 4) = some inst ∧
      ((inst.op = A64Op.BL ∧
          extractTargetARM64 inst (u64 (base + 4 * k)) CallSiteCall ConfidenceHigh = some e) ∨
       (inst.op = A64Op.B ∧ ∃ conf, (conf = ConfidenceLow ∨ conf = ConfidenceMedium) ∧
          extractTargetARM64 inst (u64 (base + 4 * k)) CallSiteJump conf = some e)) := by
  obtain ⟨k, hk, hmem⟩ := List.mem_flatMap.mp h
  obtain ⟨inst, hdec, hspec⟩ := mem_arm64EmitAt hmem
  have hk4 : 4 * k + 4 ≤ code.length := by
    have h1 : k + 1 ≤ code.length / 4 := Nat.succ_le_of_lt (List.mem_range.mp hk)
    have h2 : (k + 1) * 4 ≤ (code.length / 4) * 4 := Nat.mul_le_mul_right 4 h1
    have h3 : (code.length / 4) * 4 ≤ code.length := Nat.div_mul_le_self _ 4
    omega
  exact ⟨k, inst, hk4, hdec, hspec⟩

theorem mem_amd64PrologueEmit {prev : Option X86Inst} {inst : X86Inst} {addr : Nat}
    {r : Prologue} (h : r ∈ amd64PrologueEmit prev inst addr) :
    r.address = addr ∨ ∃ p, prev = some p ∧ r.address = u64sub addr p.len := by
  unfold amd64PrologueEmit at h
  simp only [List.mem_append] at h
  rcases h with ((h | h) | h) | h
  · split at h
    · rename_i p
      split at h
      · simp only [List.mem_singleton] at h
        subst h
        exact .inr ⟨p, rfl, rfl⟩
      · simp at h
    · simp at h
  · split at h
    · split at h
      · split at h
        · simp only [List.mem_singleton] at h
          subst h
          exact .inl rfl
        · simp at h
      · simp at h
    · simp at h
  · split at h
    · simp only [List.mem_singleton] at h
      subst h
      exact .inl rfl
    · simp at h
  · split at h
    · simp only [List.mem_singleton] at h
      subst h
      exact .inl rfl
    · simp at h

theorem scanPrologues_range {code : List Nat} {base : Nat}
    (hov : base + code.length ≤ U64MOD) :
    ∀ (fuel offset : Nat) (prev : Option X86Inst),
      (∀ p, prev = some p → p.len ≤ offset) →
      ∀ r ∈ scanProloguesAMD64 code base fuel offset prev,
        base ≤ r.address ∧ r.address < base + code.length := by
  intro fuel
  induction fuel with
  | zero => intro offset prev _ r hr; simp [scanProloguesAMD64] at hr
  | succ n ih =>
    intro offset prev hprev r hr
    simp only [scanProloguesAMD64] at hr
    split at hr
    · rename_i hoff
      split at hr
      · exact ih (offset + 1) none (by simp) r hr
      · rename_i inst hdec
        rcases List.mem_append.mp hr with h1 | h2
        · have haddr : u64 (base + offset) = base + offset :=
            u64_eq_of_lt (by omega)
          rcases mem_amd64PrologueEmit h1 with h | ⟨p, hp, h⟩
          · rw [h, haddr]; omega
          · have hplen : p.len ≤ offset := hprev p hp
            rw [h, haddr, u64sub_eq (by omega) (by omega)]
            omega
        · refine ih (offset + inst.len) (some inst) ?_ r h2
          intro p hp
          cases hp
          omega
    · simp at hr

theorem addrNodup_addPrologueCandidate {m : List FunctionCandidate} {p : Prologue}
    (h : (m.map (fun c => c.address)).Nodup) :
    ((addPrologueCandidate m p).map (fun c => c.address)).Nodup := by
  unfold addPrologueCandidate
  split
  · rename_i hany
    have hmap : ((m.map (fun x =>
        if x.address == p.address then
          ({ address := p.address, detectionType := DetectionPrologueOnly,
             prologueType := p.type, calledFrom := [], jumpedFrom := [],
             confidence := ConfidenceMedium } : FunctionCandidate)
        else x)).map (fun c => c.address)) = m.map (fun c => c.address) := by
      rw [List.map_map]
      apply List.map_congr_left
      intro x _
      by_cases hb : x.address = p.address <;> simp [Function.comp, hb]
    rw [hmap]
    exact h
  · rename_i hany
    rw [List.map_append]
    simp only [List.map_cons, List.map_nil]
    rw [List.nodup_append]
    refine ⟨h, List.nodup_singleton _, ?_⟩
    intro a ha hb
    simp only [List.mem_singleton] at hb
    subst hb
    obtain ⟨x, hx, hxa⟩ := List.mem_map.mp ha
    have := List.any_eq_false.mp (Bool.not_eq_true _ ▸ hany) x hx
    simp only [beq_iff_eq] at this
    exact this (by simpa using hxa)

theorem addrNodup_applyEdge {m : List FunctionCandidate} {e : CallSiteEdge}
    (h : (m.map (fun c => c.address)).Nodup) :
    ((applyEdge m e).map (fun c => c.address)).Nodup := by
  unfold applyEdge
  split
  · exact h
  · split
    · rename_i hany
      have hmap : ((m.map (fun c =>
          if c.address == e.targetAddr then
            { c with
              detectionType := DetectionBoth
              confidence := ConfidenceHigh
              calledFrom := if e.type == CallSiteCall then c.calledFrom ++ [e.sourceAddr]
                            else c.calledFrom
              jumpedFrom := if e.type == CallSiteCall then c.jumpedFrom
                            else c.jumpedFrom ++ [e.sourceAddr] }
          else c)).map (fun c => c.address)) = m.map (fun c => c.address) := by
        rw [List.map_map]
        apply List.map_congr_left
        intro x _
        by_cases hb : x.address = e.targetAddr <;> simp [Function.comp, hb]
      rw [hmap]
      exact h
    · rename_i hcond hany
      rw [List.map_append]
      simp only [List.map_cons, List.map_nil]
      rw [List.nodup_append]
      refine ⟨h, List.nodup_singleton _, ?_⟩
      intro a ha hb
      simp only [List.mem_singleton] at hb
      subst hb
      obtain ⟨x, hx, hxa⟩ := List.mem_map.mp ha
      have := List.any_eq_false.mp (Bool.not_eq_true _ ▸ hany) x hx
      simp only [beq_iff_eq] at this
      exact this (by simpa using hxa)

theorem addrNodup_foldl_prologues :
    ∀ (ps : List Prologue) (m : List FunctionCandidate),
      (m.map (fun c => c.address)).Nodup →
      ((ps.foldl addPrologueCandidate m).map (fun c => c.address)).Nodup := by
  intro ps
  induction ps with
  | nil => intro m h; exact h
  | cons p rest ih =>
    intro m h
    exact ih _ (addrNodup_addPrologueCandidate h)

theorem addrNodup_foldl_edges :
    ∀ (es : List CallSiteEdge) (m : List FunctionCandidate),
      (m.map (fun c => c.address)).Nodup →
      ((es.foldl applyEdge m).map (fun c => c.address)).Nodup := by
  intro es
  induction es with
  | nil => intro m h; exact h
  | cons e rest ih =>
    intro m h
    exact ih _ (addrNodup_applyEdge h)

theorem perm_insertByAddr (c : FunctionCandidate) (l : List FunctionCandidate) :
    List.Perm (insertByAddr c l) (c :: l) := by
  induction l with
  | nil => exact List.Perm.refl _
  | cons d rest ih =>
    unfold insertByAddr
    split
    · exact List.Perm.refl _
    · exact (ih.cons d).trans (List.Perm.swap c d rest)

theorem sorted_insertByAddr {c : FunctionCandidate} {l : List FunctionCandidate}
    (h : l.Pairwise (fun a b => a.address ≤ b.address)) :
    (insertByAddr c l).Pairwise (fun a b => a.address ≤ b.address) := by
  induction l with
  | nil => simp [insertByAddr]
  | cons d rest ih =>
    rw [List.pairwise_cons] at h
    unfold insertByAddr
    split
    · rename_i hcd
      rw [List.pairwise_cons]
      refine ⟨?_, List.pairwise_cons.mpr h⟩
      intro b hb
      rcases List.mem_cons.mp hb with rfl | hb
      · exact hcd
      · exact le_trans hcd (h.1 b hb)
    · rename_i hcd
      rw [List.pairwise_cons]
      refine ⟨?_, ih h.2⟩
      intro b hb
      rcases List.mem_cons.mp ((perm_insertByAddr c rest).mem_iff.mp hb) with rfl | hb
      · omega
      · exact h.1 b hb

theorem perm_sortByAddr (l : List FunctionCandidate) : List.Perm (sortByAddr l) l := by
  induction l with
  | nil => exact List.Perm.refl _
  | cons c rest ih =>
    exact (perm_insertByAddr c (sortByAddr rest)).trans (ih.cons c)

theorem sorted_sortByAddr (l : List FunctionCandidate) :
    (sortByAddr l).Pairwise (fun a b => a.address ≤ b.address) := by
  induction l with
  | nil => simp [sortByAddr]
  | cons c rest ih => exact sorted_insertByAddr ih

/-- The fused candidate list is strictly ascending by address. -/
theorem fuseCandidates_pairwise_lt (ps : List Prologue) (es : List CallSiteEdge) :
    (fuseCandidates ps es).Pairwise (fun a b => a.address < b.address) := by
  have hnd : (((es.foldl applyEdge (ps.foldl addPrologueCandidate [])).map
      (fun c => c.address)).Nodup) :=
    addrNodup_foldl_edges es _ (addrNodup_foldl_prologues ps [] (by simp))
  set m := es.foldl applyEdge (ps.foldl addPrologueCandidate []) with hm
  have hperm : List.Perm (sortByAddr m) m := perm_sortByAddr m
  have hnd2 : ((sortByAddr m).map (fun c => c.address)).Nodup :=
    ((hperm.map (fun c => c.address)).nodup_iff).mpr hnd
  have hne : (sortByAddr m).Pairwise (fun a b => a.address ≠ b.address) :=
    List.pairwise_map.mp hnd2
  have hle : (sortByAddr m).Pairwise (fun a b => a.address ≤ b.address) :=
    sorted_sortByAddr m
  exact (hle.and hne).imp (fun h => lt_of_le_of_ne h.1 h.2)

/-- C1: the claim "`detection = Both` implies a prologue existed at that
address" fails on the code: on the AMD64 buffer
`E8 05 00 00 00; E8 00 00 00 00; C3` (two CALLs whose targets are both
`0x0A`, the RET), the first edge creates a call-target candidate at `0x0A`
and the second edge finds that entry already present and upgrades it to
`both`/High — yet `DetectPrologues` emits no record at all, so no prologue
exists at `0x0A`.  This contradicts the source's own declaration comment
(`DetectionBoth ... // Prologue + called/jumped to`). -/
theorem detectFunctions_both_without_prologue :
    DetectFunctions
        [0xE8, 0x05, 0x00, 0x00, 0x00, 0xE8, 0x00, 0x00, 0x00, 0x00, 0xC3] 0 ArchAMD64 =
      .ok [{ address := 0x0A, detectionType := DetectionBoth, prologueType := "",
             calledFrom := [0x00, 0x05], jumpedFrom := [],
             confidence := ConfidenceHigh }] ∧
    DetectPrologues
        [0xE8, 0x05, 0x00, 0x00, 0x00, 0xE8, 0x00, 0x00, 0x00, 0x00, 0xC3] 0 ArchAMD64 =
      .ok [] :=
  ⟨rfl, rfl⟩

/-- C2 counterexample: on the 5-byte buffer `E8 0B 00 00 00` at base 0 the
detector emits an edge whose `target_addr` is `0x10`, which violates
`address < base + |code| = 5`; so not every output address lies inside the
buffer. -/
theorem detectCallSites_target_out_of_range :
    (⟨0, 0x10, CallSiteCall, AddressingModePCRelative, ConfidenceHigh⟩ : CallSiteEdge) ∈
      detectCallSitesAMD64 [0xE8, 0x0B, 0x00, 0x00, 0x00] 0 ∧
    ¬((0x10 : Nat) < 0 + ([0xE8, 0x0B, 0x00, 0x00, 0x00] : List Nat).length) := by
  constructor
  · decide
  · decide

theorem mem_a64PrologueAt_address {code : List Nat} {base k : Nat} {r : Prologue}
    (h : r ∈ a64PrologueAt code base k) : r.address = u64 (base + 4 * k) := by
  simp only [a64PrologueAt] at h
  split_ifs at h <;>
    first
    | (simp only [List.mem_singleton] at h; subst h; rfl)
    | simp at h

/-- C2 amended: in the absence of `uint64` wrap-around
(`base + |code| ≤ 2^64`), prologue-record addresses (on AMD64 and ARM64)
and edge source addresses always satisfy `base ≤ address < base + |code|`;
target addresses (and the candidates `DetectFunctions` creates from
call/jump targets) carry no such bound — of the adapters, only
`DetectCallSitesFromELF` filters, and only edges, against the `.text`
range; `DetectFunctionsFromELF` applies no filter. -/
theorem detect_source_addresses_in_range (code : List Nat) (base : Nat)
    (hov : base + code.length ≤ U64MOD) :
    (∀ e ∈ detectCallSitesAMD64 code base,
        base ≤ e.sourceAddr ∧ e.sourceAddr < base + code.length) ∧
    (∀ e ∈ detectCallSitesARM64 code base,
        base ≤ e.sourceAddr ∧ e.sourceAddr < base + code.length) ∧
    (∀ r ∈ detectProloguesAMD64 code base,
        base ≤ r.address ∧ r.address < base + code.length) ∧
    (∀ r ∈ detectProloguesARM64 code base,
        base ≤ r.address ∧ r.address < base + code.length) := by
  refine ⟨?_, ?_, ?_, ?_⟩
  · intro e he
    obtain ⟨off, inst, hlt, hdec, hcase⟩ := amd64_edge_spec he
    have hsrc : e.sourceAddr = u64 (base + off) := by
      rcases hcase with ⟨_, hex⟩ | ⟨_, hex⟩ <;> exact extractTargetAMD64_source hex
    rw [hsrc, u64_eq_of_lt (by omega)]
    omega
  · intro e he
    obtain ⟨k, inst, hk4, hdec, hcase⟩ := arm64_edge_spec he
    have hsrc : e.sourceAddr = u64 (base + 4 * k) := by
      rcases hcase with ⟨_, hex⟩ | ⟨_, _, _, hex⟩ <;>
        · obtain ⟨d, _, he2⟩ := extractTargetARM64_spec hex
          rw [he2]
    rw [hsrc, u64_eq_of_lt (by omega)]
    omega
  · exact scanPrologues_range hov (code.length + 1) 0 none (by simp)
  · intro r hr
    obtain ⟨k, hk, hmem⟩ := List.mem_flatMap.mp hr
    have hk4 : 4 * k + 4 ≤ code.length := by
      have h1 : k + 1 ≤ code.length / 4 := Nat.succ_le_of_lt (List.mem_range.mp hk)
      have h2 : (k + 1) * 4 ≤ (code.length / 4) * 4 := Nat.mul_le_mul_right 4 h1
      have h3 : (code.length / 4) * 4 ≤ code.length := Nat.div_mul_le_self _ 4
      omega
    rw [mem_a64PrologueAt_address hmem, u64_eq_of_lt (by omega)]
    omega

/-- C2 amended witness at `E8 0B 00 00 00`, base 0. -/
theorem detect_source_addresses_in_range_witness :
    (0 : Nat) ≤
      (⟨0, 0x10, CallSiteCall, AddressingModePCRelative, ConfidenceHigh⟩ :
        CallSiteEdge).sourceAddr ∧
    (⟨0, 0x10, CallSiteCall, AddressingModePCRelative, ConfidenceHigh⟩ :
        CallSiteEdge).sourceAddr <
      0 + ([0xE8, 0x0B, 0x00, 0x00, 0x00] : List Nat).length :=
  (detect_source_addresses_in_range [0xE8, 0x0B, 0x00, 0x00, 0x00] 0
      (by norm_num [U64MOD])).1
    ⟨0, 0x10, CallSiteCall, AddressingModePCRelative, ConfidenceHigh⟩ (by decide)

/-- C4: before each decode attempt the AMD64 call-site scanner skips a
four-byte ENDBR64/ENDBR32 landing pad without emitting any record, and on
an ENDBR64 pad followed by a direct CALL it returns exactly the CALL edge
with `source_addr` the byte after the pad. -/
theorem endbr_skip_and_call_detection :
    (∀ (code : List Nat) (base fuel off : Nat),
        isENDBRAt code off = true →
        scanCallSitesAMD64 code base (fuel + 1) off =
          scanCallSitesAMD64 code base fuel (off + 4)) ∧
    detectCallSitesAMD64 [0xF3, 0x0F, 0x1E, 0xFA, 0xE8, 0x17, 0x00, 0x00, 0x00] 0 =
      [⟨0x04, 0x20, CallSiteCall, AddressingModePCRelative, ConfidenceHigh⟩] := by
  constructor
  · intro code base fuel off h
    have h4 : off + 4 ≤ code.length := by
      unfold isENDBRAt at h
      simp only [Bool.and_eq_true, decide_eq_true_eq] at h
      exact h.1.1.1.1
    simp only [scanCallSitesAMD64]
    rw [if_pos (show off < code.length by omega), if_pos h]
  · rfl

/-- C4 witness: the skip equation at the concrete ENDBR64 input. -/
theorem endbr_skip_and_call_detection_witness :
    scanCallSitesAMD64 [0xF3, 0x0F, 0x1E, 0xFA, 0xE8, 0x17, 0x00, 0x00, 0x00] 0 (8 + 1) 0 =
      scanCallSitesAMD64 [0xF3, 0x0F, 0x1E, 0xFA, 0xE8, 0x17, 0x00, 0x00, 0x00] 0 8 4 :=
  endbr_skip_and_call_detection.1
    [0xF3, 0x0F, 0x1E, 0xFA, 0xE8, 0x17, 0x00, 0x00, 0x00] 0 8 0 (by decide)

/-- C6: for a CALL or JMP whose operand is a memory form with base `RIP`
and no index, the extracted edge is PC-relative with
`target = source + inst_len + disp` and confidence Medium regardless of the
base confidence (so Medium even for CALL, whose base confidence is High);
and such an edge flows through `detectCallSitesAMD64` unchanged, as on the
concrete `call [rip+0x1234]`. -/
theorem ripRelative_always_medium :
    (∀ (inst : X86Inst) (src : Nat) (cfType baseConf : String) (s : Nat) (d : Int),
        inst.args.head? = some (X86Arg.mem (some X86Reg.RIP) none s d) →
        extractTargetAMD64 inst src cfType baseConf =
          some ⟨src, u64 (src + inst.len + u64ofInt d), cfType,
            AddressingModePCRelative, ConfidenceMedium⟩) ∧
    detectCallSitesAMD64 [0xFF, 0x15, 0x34, 0x12, 0x00, 0x00] 0x1000 =
      [⟨0x1000, 0x223A, CallSiteCall, AddressingModePCRelative, ConfidenceMedium⟩] := by
  constructor
  · intro inst src cfType baseConf s d h
    unfold extractTargetAMD64
    rw [h]
    simp
  · rfl

/-- C6 witness: the extract-level equation at a concrete RIP-relative CALL
instruction with base confidence High. -/
theorem ripRelative_always_medium_witness :
    extractTargetAMD64
        ⟨X86Op.CALL, [X86Arg.mem (some X86Reg.RIP) none 0 0x1234], 6⟩ 0x1000
        CallSiteCall ConfidenceHigh =
      some ⟨0x1000, u64 (0x1000 + 6 + u64ofInt 0x1234), CallSiteCall,
        AddressingModePCRelative, ConfidenceMedium⟩ :=
  ripRelative_always_medium.1
    ⟨X86Op.CALL, [X86Arg.mem (some X86Reg.RIP) none 0 0x1234], 6⟩ 0x1000
    CallSiteCall ConfidenceHigh 0 0x1234 rfl

/-- C7: any architecture tag outside `{amd64, arm64}` makes
`DetectCallSites`, `DetectFunctions` (and `DetectPrologues`) return a
structural error and no result list. -/
theorem unsupported_arch_errors (code : List Nat) (base : Nat) (arch : String)
    (h1 : arch ≠ ArchAMD64) (h2 : arch ≠ ArchARM64) :
    (∃ m, DetectCallSites code base arch = .error m) ∧
    (∃ m, DetectFunctions code base arch = .error m) ∧
    (∃ m, DetectPrologues code base arch = .error m) := by
  refine ⟨⟨"unsupported architecture: " ++ arch, ?_⟩,
    ⟨"failed to detect prologues: " ++ ("unsupported architecture: " ++ arch), ?_⟩,
    ⟨"unsupported architecture: " ++ arch, ?_⟩⟩
  · simp [DetectCallSites, h1, h2]
  · simp [DetectFunctions, DetectPrologues, h1, h2]
  · simp [DetectPrologues, h1, h2]

/-- C7 witness at the architecture tag `"mips"` (as in the repo's tests). -/
theorem unsupported_arch_errors_witness :
    (∃ m, DetectCallSites [0x00] 0 "mips" = .error m) ∧
    (∃ m, DetectFunctions [0x00] 0 "mips" = .error m) ∧
    (∃ m, DetectPrologues [0x00] 0 "mips" = .error m) :=
  unsupported_arch_errors [0x00] 0 "mips" (by decide) (by decide)

/-- C3: every PC-relative edge (whose confidence is then never None) stems
from a decoded instruction at an in-bounds offset; its `source_addr` is the
start address of that instruction, and its `target_addr` is exactly
`source + inst_len + sext(disp)` for AMD64 `Rel` and RIP-relative memory
forms, and exactly `source + sext(disp)` for ARM64 `BL`/`B`, all in
wrap-around 64-bit arithmetic. -/
theorem pcRelative_edge_arithmetic :
    (∀ (code : List Nat) (base : Nat) (e : CallSiteEdge),
        e ∈ detectCallSitesAMD64 code base →
        e.addressMode = AddressingModePCRelative →
        e.confidence ≠ ConfidenceNone ∧
        ∃ off inst, off < code.length ∧ x86Decode (code.drop off) = some inst ∧
          e.sourceAddr = u64 (base + off) ∧
          ((∃ d, inst.args.head? = some (X86Arg.rel d) ∧
              e.targetAddr = u64 (e.sourceAddr + inst.len + u64ofInt d)) ∨
           (∃ s d, inst.args.head? = some (X86Arg.mem (some X86Reg.RIP) none s d) ∧
              e.targetAddr = u64 (e.sourceAddr + inst.len + u64ofInt d)))) ∧
    (∀ (code : List Nat) (base : Nat) (e : CallSiteEdge),
        e ∈ detectCallSitesARM64 code base →
        e.addressMode = AddressingModePCRelative →
        e.confidence ≠ ConfidenceNone ∧
        ∃ k inst, 4 * k + 4 ≤ code.length ∧
          arm64Decode ((code.drop (4 * k)).take 4) = some inst ∧
          e.sourceAddr = u64 (base + 4 * k) ∧
          ∃ d, inst.args.head? = some (A64Arg.pcrel d) ∧
            e.targetAddr = u64 (e.sourceAddr + u64ofInt d)) := by
  constructor
  · intro code base e he hm
    obtain ⟨off, inst, hlt, hdec, hcase⟩ := amd64_edge_spec he
    rcases hcase with ⟨_, hex⟩ | ⟨_, hex⟩ <;>
    · have hsrc := extractTargetAMD64_source hex
      rcases extractTargetAMD64_pcrel hex hm with ⟨d, hargs, htgt, hconf⟩ |
        ⟨s, d, hargs, htgt, hconf⟩
      · rw [← hsrc] at htgt
        exact ⟨by rw [hconf]; decide,
          off, inst, hlt, hdec, hsrc, .inl ⟨d, hargs, htgt⟩⟩
      · rw [← hsrc] at htgt
        exact ⟨by rw [hconf]; decide,
          off, inst, hlt, hdec, hsrc, .inr ⟨s, d, hargs, htgt⟩⟩
  · intro code base e he hm
    obtain ⟨k, inst, hk4, hdec, hcase⟩ := arm64_edge_spec he
    rcases hcase with ⟨hop, hex⟩ | ⟨hop, conf, hconf, hex⟩
    · obtain ⟨d, hargs, he2⟩ := extractTargetARM64_spec hex
      subst he2
      exact ⟨by simp [ConfidenceHigh, ConfidenceNone],
        k, inst, hk4, hdec, rfl, d, hargs, rfl⟩
    · obtain ⟨d, hargs, he2⟩ := extractTargetARM64_spec hex
      subst he2
      rcases hconf with rfl | rfl
      · exact ⟨by simp [ConfidenceLow, ConfidenceNone],
          k, inst, hk4, hdec, rfl, d, hargs, rfl⟩
      · exact ⟨by simp [ConfidenceMedium, ConfidenceNone],
          k, inst, hk4, hdec, rfl, d, hargs, rfl⟩

/-- C3 witness: the negative-displacement `call $-0x20` at base `0x100`. -/
theorem pcRelative_edge_arithmetic_witness :
    (⟨0x100, 0xE5, CallSiteCall, AddressingModePCRelative, ConfidenceHigh⟩ :
        CallSiteEdge).confidence ≠ ConfidenceNone ∧
    ∃ off inst,
      off < ([0xE8, 0xE0, 0xFF, 0xFF, 0xFF] : List Nat).length ∧
      x86Decode (([0xE8, 0xE0, 0xFF, 0xFF, 0xFF] : List Nat).drop off) = some inst ∧
      (⟨0x100, 0xE5, CallSiteCall, AddressingModePCRelative, ConfidenceHigh⟩ :
          CallSiteEdge).sourceAddr = u64 (0x100 + off) ∧
      ((∃ d, inst.args.head? = some (X86Arg.rel d) ∧
          (⟨0x100, 0xE5, CallSiteCall, AddressingModePCRelative, ConfidenceHigh⟩ :
              CallSiteEdge).targetAddr =
            u64 ((⟨0x100, 0xE5, CallSiteCall, AddressingModePCRelative,
                ConfidenceHigh⟩ : CallSiteEdge).sourceAddr + inst.len + u64ofInt d)) ∨
       (∃ s d, inst.args.head? = some (X86Arg.mem (some X86Reg.RIP) none s d) ∧
          (⟨0x100, 0xE5, CallSiteCall, AddressingModePCRelative, ConfidenceHigh⟩ :
              CallSiteEdge).targetAddr =
            u64 ((⟨0x100, 0xE5, CallSiteCall, AddressingModePCRelative,
                ConfidenceHigh⟩ : CallSiteEdge).sourceAddr + inst.len + u64ofInt d))) :=
  pcRelative_edge_arithmetic.1 [0xE8, 0xE0, 0xFF, 0xFF, 0xFF] 0x100
    ⟨0x100, 0xE5, CallSiteCall, AddressingModePCRelative, ConfidenceHigh⟩
    (by decide) rfl

/-- C5: a successful `DetectFunctions` result is strictly ascending by
address, hence contains at most one candidate per distinct address, no
matter how many prologue records or edges refer to the same address. -/
theorem detectFunctions_sorted_nodup (code : List Nat) (base : Nat) (arch : String)
    (res : List FunctionCandidate) (h : DetectFunctions code base arch = .ok res) :
    res.Pairwise (fun a b => a.address < b.address) := by
  unfold DetectFunctions at h
  split at h
  · exact Except.noConfusion h
  · split at h
    · exact Except.noConfusion h
    · cases h
      exact fuseCandidates_pairwise_lt _ _

/-- C5 witness on the documented two-function example. -/
theorem detectFunctions_sorted_nodup_witness :
    ([⟨0x1000, DetectionPrologueOnly, PrologueClassic, [], [], ConfidenceMedium⟩,
      ⟨0x1020, DetectionBoth, PrologueClassic, [0x1004], [], ConfidenceHigh⟩] :
      List FunctionCandidate).Pairwise (fun a b => a.address < b.address) :=
  detectFunctions_sorted_nodup
    [0x55, 0x48, 0x89, 0xE5, 0xE8, 0x17, 0x00, 0x00, 0x00, 0xC3,
     0x00, 0x00, 0x00, 0x00, 0x00, 0x00, 0x00, 0x00, 0x00, 0x00, 0x00,
     0x00, 0x00, 0x00, 0x00, 0x00, 0x00, 0x00, 0x00, 0x00, 0x00, 0x00,
     0x55, 0x48, 0x89, 0xE5] 0x1000 ArchAMD64 _ (by rfl)

/-- C8: the empty buffer yields `ok []` from all three detectors on both
architectures, and any ARM64 buffer shorter than one 4-byte instruction
also yields `ok []` (on AMD64 the minimum width is 1 byte, so only the
empty buffer is below it). -/
theorem empty_and_short_buffers_empty_output :
    ∀ base : Nat,
      (DetectPrologues [] base ArchAMD64 = .ok [] ∧
       DetectCallSites [] base ArchAMD64 = .ok [] ∧
       DetectFunctions [] base ArchAMD64 = .ok []) ∧
      (DetectPrologues [] base ArchARM64 = .ok [] ∧
       DetectCallSites [] base ArchARM64 = .ok [] ∧
       DetectFunctions [] base ArchARM64 = .ok []) ∧
      (∀ code : List Nat, code.length < 4 →
        DetectPrologues code base ArchARM64 = .ok [] ∧
        DetectCallSites code base ArchARM64 = .ok [] ∧
        DetectFunctions code base ArchARM64 = .ok []) := by
  intro base
  refine ⟨⟨rfl, rfl, rfl⟩, ⟨rfl, rfl, rfl⟩, ?_⟩
  intro code hlen
  have h4 : code.length / 4 = 0 := Nat.div_eq_of_lt hlen
  have hp : detectProloguesARM64 code base = [] := by
    unfold detectProloguesARM64
    rw [h4]
    rfl
  have hc : detectCallSitesARM64 code base = [] := by
    unfold detectCallSitesARM64
    rw [h4]
    rfl
  have hP : DetectPrologues code base ArchARM64 = .ok [] := by
    unfold DetectPrologues
    rw [if_neg (by decide), if_pos rfl, hp]
  have hC : DetectCallSites code base ArchARM64 = .ok [] := by
    unfold DetectCallSites
    rw [if_neg (by decide), if_pos rfl, hc]
  refine ⟨hP, hC, ?_⟩
  unfold DetectFunctions
  rw [hP, hC]
  rfl

/-- C8 witness at base 0 with the 3-byte ARM64 buffer `00 00 00`. -/
theorem empty_and_short_buffers_empty_output_witness :
    DetectPrologues [0x00, 0x00, 0x00] 0 ArchARM64 = .ok [] ∧
    DetectCallSites [0x00, 0x00, 0x00] 0 ArchARM64 = .ok [] ∧
    DetectFunctions [0x00, 0x00, 0x00] 0 ArchARM64 = .ok [] :=
  (empty_and_short_buffers_empty_output 0).2.2 [0x00, 0x00, 0x00] (by decide)

/-- C9: a decode failure clears the one-instruction window of the AMD64
prologue scanner, so whatever preceded the failure, the boundary predicate
holds at the next decodable instruction: if the instruction decoded right
after a failing position is `SUB RSP, imm` with a positive immediate,
`PUSH RBP`, or `LEA RSP, …`, a prologue record is emitted at its address
even when no RET precedes it. -/
theorem decode_failure_resets_window :
    ∀ (code : List Nat) (base k fuel : Nat) (prev : Option X86Inst) (inst : X86Inst),
      k < code.length →
      x86Decode (code.drop k) = none →
      x86Decode (code.drop (k + 1)) = some inst →
      ((inst.op = X86Op.SUB ∧ inst.args.head? = some (X86Arg.reg X86Reg.RSP) ∧
          ∃ v, inst.args[1]? = some (X86Arg.imm v) ∧ 0 < v) ∨
       (inst.op = X86Op.PUSH ∧ inst.args.head? = some (X86Arg.reg X86Reg.RBP)) ∨
       (inst.op = X86Op.LEA ∧ inst.args.head? = some (X86Arg.reg X86Reg.RSP))) →
      ∃ r ∈ scanProloguesAMD64 code base (fuel + 2) k prev,
        r.address = u64 (base + (k + 1)) := by
  intro code base k fuel prev inst hk hfail hsome hpat
  have hk1 : k + 1 < code.length := lt_length_of_x86Decode_drop hsome
  simp only [scanProloguesAMD64, hfail, hsome, hk, hk1, if_true]
  rcases hpat with ⟨hop, ha0, v, ha1, hv⟩ | ⟨hop, ha0⟩ | ⟨hop, ha0⟩
  · refine ⟨⟨u64 (base + (k + 1)), PrologueNoFramePointer,
      "sub rsp, 0x" ++ hexStr v.toNat⟩, List.mem_append_left _ ?_, rfl⟩
    simp [amd64PrologueEmit, atBoundary, hop, ha0, ha1, hv]
  · refine ⟨⟨u64 (base + (k + 1)), ProloguePushOnly, "push rbp"⟩,
      List.mem_append_left _ ?_, rfl⟩
    simp [amd64PrologueEmit, atBoundary, hop, ha0]
  · refine ⟨⟨u64 (base + (k + 1)), PrologueLEABased, "lea rsp, [rsp-offset]"⟩,
      List.mem_append_left _ ?_, rfl⟩
    simp [amd64PrologueEmit, atBoundary, hop, ha0]

/-- C9 witness: after a NOP (so the window is non-empty and not a RET), an
undecodable byte `0x06`, then `PUSH RBP`: the record still appears. -/
theorem decode_failure_resets_window_witness :
    ∃ r ∈ scanProloguesAMD64 [0x90, 0x06, 0x55] 0 (0 + 2) 1
        (some ⟨X86Op.NOP, [], 1⟩),
      r.address = u64 (0 + (1 + 1)) :=
  decode_failure_resets_window [0x90, 0x06, 0x55] 0 1 0
    (some ⟨X86Op.NOP, [], 1⟩) ⟨X86Op.PUSH, [X86Arg.reg X86Reg.RBP], 1⟩
    (by decide) (by decide) (by decide) (.inr (.inl ⟨rfl, rfl⟩))

/-- C10: the ARM64 call-site detector emits edges only for decoded `BL` and
`B` opcodes, so no ARM64 edge is ever register-indirect or of confidence
None — unlike AMD64, where a register-indirect CALL yields an edge with
confidence None and target 0, as on the concrete `call rax`. -/
theorem arm64_no_register_indirect_edges :
    (∀ (code : List Nat) (base : Nat) (e : CallSiteEdge),
        e ∈ detectCallSitesARM64 code base →
        e.addressMode = AddressingModePCRelative ∧
        e.addressMode ≠ AddressingModeRegisterIndirect ∧
        e.confidence ≠ ConfidenceNone ∧
        ∃ k inst, arm64Decode ((code.drop (4 * k)).take 4) = some inst ∧
          (inst.op = A64Op.BL ∨ inst.op = A64Op.B)) ∧
    detectCallSitesAMD64 [0xFF, 0xD0] 0x200 =
      [⟨0x200, 0, CallSiteCall, AddressingModeRegisterIndirect, ConfidenceNone⟩] := by
  constructor
  · intro code base e he
    obtain ⟨k, inst, hk4, hdec, hcase⟩ := arm64_edge_spec he
    rcases hcase with ⟨hop, hex⟩ | ⟨hop, conf, hconf, hex⟩
    · obtain ⟨d, hargs, he2⟩ := extractTargetARM64_spec hex
      subst he2
      exact ⟨rfl, by simp [AddressingModePCRelative, AddressingModeRegisterIndirect],
        by simp [ConfidenceHigh, ConfidenceNone], k, inst, hdec, .inl hop⟩
    · obtain ⟨d, hargs, he2⟩ := extractTargetARM64_spec hex
      subst he2
      rcases hconf with rfl | rfl
      · exact ⟨rfl, by simp [AddressingModePCRelative, AddressingModeRegisterIndirect],
          by simp [ConfidenceLow, ConfidenceNone], k, inst, hdec, .inr hop⟩
      · exact ⟨rfl, by simp [AddressingModePCRelative, AddressingModeRegisterIndirect],
          by simp [ConfidenceMedium, ConfidenceNone], k, inst, hdec, .inr hop⟩
  · rfl

/-- C10 witness at the concrete ARM64 `BL +0x1000`. -/
theorem arm64_no_register_indirect_edges_witness :
    (⟨0x1000, 0x2000, CallSiteCall, AddressingModePCRelative, ConfidenceHigh⟩ :
        CallSiteEdge).addressMode = AddressingModePCRelative ∧
    (⟨0x1000, 0x2000, CallSiteCall, AddressingModePCRelative, ConfidenceHigh⟩ :
        CallSiteEdge).addressMode ≠ AddressingModeRegisterIndirect ∧
    (⟨0x1000, 0x2000, CallSiteCall, AddressingModePCRelative, ConfidenceHigh⟩ :
        CallSiteEdge).confidence ≠ ConfidenceNone ∧
    ∃ k inst,
      arm64Decode ((([0x00, 0x04, 0x00, 0x94] : List Nat).drop (4 * k)).take 4) =
        some inst ∧
      (inst.op = A64Op.BL ∨ inst.op = A64Op.B) :=
  arm64_no_register_indirect_edges.1 [0x00, 0x04, 0x00, 0x94] 0x1000
    ⟨0x1000, 0x2000, CallSiteCall, AddressingModePCRelative, ConfidenceHigh⟩
    (by decide)

end Resurgo
